/-
Verification of the Orchestrator-AI mission orchestration engine.

This file is a shallow embedding, in Lean 4, of the core logic of the
repository:
  * the token-budget rate limiter and cooldown timer (App.tsx:
    checkRateLimit, the cooldown/auto-resume interval effect),
  * the mission state machine step (App.tsx: processNextStep and its
    error handler, handleRestart, handleLoadSession),
  * the service layer (services/geminiService.ts: createSupervisorPlan,
    updateSupervisorPlan, executeAgentTask, superviseFinalOutput), and
  * the multi-key failover strategy (services/geminiService.ts:
    generateContentWithFallback).

Modelling conventions:
  * JavaScript numbers holding timestamps/milliseconds are modelled as Int;
    token counts as Nat.
  * The float comparison `(tokenUsage / maxTokens) * 100 >= 80` is rendered
    exactly over the integers as `80 * maxTokens <= 100 * tokenUsage`, which
    agrees with the exact rational value of the source expression whenever
    maxTokens > 0 (the config UI enforces maxTokens >= 1000); the bridge to
    the rational form is proved in `threshold_iff` below.
  * The external model call is an oracle parameter: each service function
    takes the outcome (parsed value plus token count, or a classified
    error) that the network/JSON layer would produce.  JSON.parse failures
    are error values like any thrown error, since the code treats them
    identically (both are exceptions reaching the same catch blocks).
  * React setState updates are modelled by threading the state value in
    program order; `stateRef.current` snapshots are represented by keeping
    the entry state (`current`) distinct from the running state, exactly as
    the source closes over `current` while updaters read the latest state.
  * `Math.random()` log ids are modelled by a deterministic fresh id (the
    current log count); no property here depends on id contents.
  * Local-storage persistence (autosave write/remove) is outside AppState
    and not modelled; comments mark where the source performs it.
-/
import Mathlib

namespace Orchestrator

/-- The closed role set (types.ts: enum AgentRole). -/
inductive AgentRole where
  | SUPERVISOR
  | RESEARCHER
  | ANALYST
  | WRITER
  | EDITOR
  | CODER
deriving DecidableEq

/-- Object.values(AgentRole): the fixed enumeration of all roles. -/
def roleList : List AgentRole :=
  [.SUPERVISOR, .RESEARCHER, .ANALYST, .WRITER, .EDITOR, .CODER]

/-- The string value of each enum member (types.ts). -/
def roleName : AgentRole → String
  | .SUPERVISOR => "Supervisor"
  | .RESEARCHER => "Researcher"
  | .ANALYST => "Analyst"
  | .WRITER => "Writer"
  | .EDITOR => "Editor"
  | .CODER => "Coder"

inductive TaskStatus where
  | pending
  | inProgress
  | completed
  | failed
deriving DecidableEq

/-- types.ts: interface Task. -/
structure Task where
  id : String
  title : String
  description : String
  assignedAgent : AgentRole
  status : TaskStatus
  result : Option String
  usage : Option Nat
deriving DecidableEq

inductive LogType where
  | plan
  | action
  | result
  | error
  | info
deriving DecidableEq

/-- types.ts: interface LogEntry.  The only metadata the source ever
attaches is `{ sources }`, a list of URLs, so metadata is modelled as an
optional URL list. -/
structure LogEntry where
  id : String
  timestamp : Int
  agent : AgentRole
  message : String
  type : LogType
  metadata : Option (List String)
deriving DecidableEq

inductive PeriodUnit where
  | seconds
  | minutes
  | hours
deriving DecidableEq

/-- types.ts: interface RateLimitConfig. -/
structure RateLimitConfig where
  maxTokens : Nat
  periodValue : Nat
  periodUnit : PeriodUnit
  autoResumeMinutes : Nat
deriving DecidableEq

inductive Status where
  | idle
  | planning
  | working
  | cooldown
  | completed
  | error
  | paused
  | autoPaused
deriving DecidableEq

/-- The runtime value of `state.agentPrompts`.  The TypeScript type is the
total `Record<AgentRole, string>`, but states parsed back from JSON
(autosave / history blobs) can carry no `agentPrompts` property at all
(`absent`, falsy in JS) or an object missing some role keys (`map m` with
`m r = none` for the missing keys). -/
inductive AgentPrompts where
  | absent
  | map (m : AgentRole → Option String)

/-- prompts[role] as read by the service layer; JS renders a missing value
as the string "undefined" inside template literals. -/
def promptOf (p : AgentPrompts) (r : AgentRole) : String :=
  match p with
  | .absent => "undefined"
  | .map m => (m r).getD "undefined"

/-- Every role is mapped to a string (the invariant the spec requires of
agentPrompts).  `roleList` enumerates the closed role set. -/
def promptsTotal (p : AgentPrompts) : Bool :=
  match p with
  | .absent => false
  | .map m => roleList.all fun r => (m r).isSome

/-- types.ts: interface AppState. -/
structure AppState where
  status : Status
  tasks : List Task
  logs : List LogEntry
  currentTaskIndex : Nat
  tokenUsage : Nat
  windowStartTime : Int
  nextAllowedQueryTime : Int
  finalOutput : Option String
  agentPrompts : AgentPrompts

/-- types.ts: interface SavedSession. -/
structure SavedSession where
  id : String
  timestamp : Int
  query : String
  config : RateLimitConfig
  state : AppState

/-- constants.ts: DEFAULT_AGENT_PROMPTS.  Every role is assigned a
non-empty instruction string; the long English bodies are abbreviated to
their first sentence, since no claim depends on the instruction text, only
on the map being total. -/
def DEFAULT_AGENT_PROMPTS : AgentRole → Option String
  | .SUPERVISOR => some "You are an expert Supervisor Agent."
  | .RESEARCHER => some "You are a Researcher Agent."
  | .ANALYST => some "You are an Analyst Agent."
  | .WRITER => some "You are a Writer Agent."
  | .EDITOR => some "You are an Editor Agent."
  | .CODER => some "You are a Coder Agent."

/-- constants.ts: DEFAULT_RATE_LIMIT. -/
def DEFAULT_RATE_LIMIT : RateLimitConfig :=
  { maxTokens := 100000, periodValue := 1, periodUnit := .minutes,
    autoResumeMinutes := 0 }

/-- App.tsx: INITIAL_STATE (windowStartTime is Date.now() at creation,
passed here as `now`). -/
def INITIAL_STATE (now : Int) : AppState :=
  { status := .idle, tasks := [], logs := [], currentTaskIndex := 0,
    tokenUsage := 0, windowStartTime := now, nextAllowedQueryTime := 0,
    finalOutput := none, agentPrompts := .map DEFAULT_AGENT_PROMPTS }

/-! ## Rate limiter (App.tsx: checkRateLimit, cooldown timer effect) -/

/-- periodMs computed from (periodValue, periodUnit); the trailing 0 is the
initialisation value `let periodMs = 0`, unreachable for the closed unit
type. -/
def periodMsOf (cfg : RateLimitConfig) : Int :=
  if cfg.periodUnit = .seconds then (cfg.periodValue : Int) * 1000
  else if cfg.periodUnit = .minutes then (cfg.periodValue : Int) * 60 * 1000
  else if cfg.periodUnit = .hours then (cfg.periodValue : Int) * 60 * 60 * 1000
  else 0

/-- App.tsx checkRateLimit: returns the permit decision and the committed
state (the source commits via setState on the freshest state).  The 80%
test `(tokenUsage / maxTokens) * 100 >= 80` is rendered exactly as
`80 * maxTokens <= 100 * tokenUsage` (see `threshold_iff`). -/
def checkRateLimit (cfg : RateLimitConfig) (now : Int) (s : AppState) :
    Bool × AppState :=
  let periodMs := periodMsOf cfg
  let elapsed := now - s.windowStartTime
  if periodMs < elapsed then
    -- Window reset
    (true, { s with
               tokenUsage := 0
               windowStartTime := now
               status := if s.status = .cooldown then .working else s.status })
  else if 80 * cfg.maxTokens ≤ 100 * s.tokenUsage then
    -- Limit hit
    (false, { s with
                status := .cooldown
                nextAllowedQueryTime := now + (periodMs - elapsed) })
  else
    (true, s)

/-- One tick of the cooldown / auto-resume interval (App.tsx lines
151-171).  The interval body recomputes the remaining wait from the
freshest state and, on expiry, resumes to working unless the user manually
paused in the interim.  (The `cooldownRemaining` it also sets is a separate
piece of UI state, not part of AppState.) -/
def cooldownTick (now : Int) (s : AppState) : AppState :=
  let remaining := max 0 (s.nextAllowedQueryTime - now)
  if remaining ≤ 0 then
    if s.status ≠ .paused then
      { s with status := .working, windowStartTime := now }
    else s
  else s

/-! ## Model gateway failover (services/geminiService.ts) -/

/-- JavaScript String.prototype.includes, over the character lists of the
strings. -/
def listStartsWith : List Char → List Char → Bool
  | [], _ => true
  | _ :: _, [] => false
  | p :: ps, c :: cs => p == c && listStartsWith ps cs

def listContainsSub (pat : List Char) : List Char → Bool
  | [] => pat.isEmpty
  | c :: t => listStartsWith pat (c :: t) || listContainsSub pat t

def strIncludes (s pat : String) : Bool := listContainsSub pat.data s.data

/-- JavaScript String.prototype.toLowerCase (ASCII, which covers every
pattern the source tests). -/
def strToLower (s : String) : String := ⟨s.data.map Char.toLower⟩

/-- A value thrown by a model-call attempt: either an SDK error carrying
optional `status` / `code` numbers, or a plain `new Error(message)` (both
fields absent).  JSON.parse exceptions are also of this shape (no status,
a message). -/
structure GenError where
  status : Option Int
  code : Option Int
  message : String
deriving DecidableEq

/-- `error.status || error.code || 500` (HTTP statuses are never 0, so JS
falsiness coincides with absence). -/
def errStatusOf (e : GenError) : Int := e.status.getD (e.code.getD 500)

/-- `error.message || JSON.stringify(error)`; a plain Error serialises to
an object with no enumerable properties. -/
def errTextOf (e : GenError) : String :=
  if e.message.isEmpty then "\x7b\x7d" else e.message

def isGlobalQuotaExhausted (e : GenError) : Bool :=
  strIncludes (errTextOf e) "limit: 0" ||
  strIncludes (errTextOf e) "GenerateRequestsPerDayPerProjectPerModel-FreeTier"

def isQuotaError (e : GenError) : Bool :=
  errStatusOf e == 429 || strIncludes (errTextOf e) "429" ||
  strIncludes (strToLower (errTextOf e)) "quota"

def isServerError (e : GenError) : Bool :=
  decide (500 ≤ errStatusOf e ∧ errStatusOf e < 600)

structure Candidate where
  finishReason : Option String
deriving DecidableEq

/-- The part of a generateContent response the failover loop inspects.
`text` empty models a missing/empty text (both falsy in JS). -/
structure RawResponse where
  text : String
  candidates : List Candidate
deriving DecidableEq

/-- The safety/recitation check performed on a successful response inside
the per-key try block: when it fires, the source throws
`new Error("Content generation blocked: " + finishReason)` — a plain Error
with no status or code. -/
def blockedCheck (r : RawResponse) : Option GenError :=
  if r.text.isEmpty then
    match r.candidates.head? with
    | some c =>
      if c.finishReason = some "SAFETY" ∨ c.finishReason = some "RECITATION"
      then some { status := none, code := none,
                  message := "Content generation blocked: " ++
                    (c.finishReason.getD "") }
      else none
    | none => none
  else none

def exhaustedError : GenError :=
  { status := none, code := none,
    message := "All API keys exhausted or service unavailable." }

/-- geminiService.ts: generateContentWithFallback.  `attempt` is the
oracle for `new GoogleGenAI({apiKey}).models.generateContent(params)` on
each key.  The first component is the value returned or the error thrown;
the second component is a ghost trace of the keys actually attempted, in
order (the source does not return it, but every claim about which
credentials are tried is a statement about exactly this trace). -/
def generateContentWithFallback (attempt : String → Except GenError RawResponse) :
    List String → Option GenError → Except GenError RawResponse × List String
  | [], lastError =>
    -- If we exhausted all keys
    (.error (lastError.getD exhaustedError), [])
  | apiKey :: rest, lastError =>
    -- The try block: a thrown blocked-content Error lands in the same
    -- catch as an error thrown by generateContent itself.
    let attemptResult : Except GenError RawResponse :=
      match attempt apiKey with
      | .ok response =>
        match blockedCheck response with
        | some e => .error e
        | none => .ok response
      | .error e => .error e
    match attemptResult with
    | .ok response => (.ok response, [apiKey])
    | .error e =>
      if isGlobalQuotaExhausted e then (.error e, [apiKey])
      else if isQuotaError e || isServerError e then
        ((generateContentWithFallback attempt rest (some e)).1,
         apiKey :: (generateContentWithFallback attempt rest (some e)).2)
      else (.error e, [apiKey])

/-- `API_KEYS[preferredRole] || keyPool[0]` — the per-role key with
fallback to the first pool key (an unset role key is the empty string,
falsy). -/
def preferredKey (apiKeys : AgentRole → String) (keyPool : List String)
    (role : AgentRole) : String :=
  if (apiKeys role).isEmpty then keyPool.headD "" else apiKeys role

/-- The order of execution: Primary -> Backup 1 -> Backup 2 ... -/
def executionOrder (apiKeys : AgentRole → String) (keyPool : List String)
    (role : AgentRole) : List String :=
  let primaryKey := preferredKey apiKeys keyPool role
  primaryKey :: keyPool.filter (fun k => k != primaryKey)

/-- A valid config: positive token budget and period (the config panel
enforces maxTokens >= 1000 and periodValue >= 1). -/
def ValidConfig (cfg : RateLimitConfig) : Prop :=
  0 < cfg.maxTokens ∧ 0 < cfg.periodValue

/-! ## Service layer (services/geminiService.ts: agent functions)

Each agent function takes an oracle for the outcome of its network/JSON
layer: the parsed value plus `usageMetadata?.totalTokenCount`, or the
error thrown (by the gateway or by JSON.parse). -/

/-- A parsed plan item `{title, description, assignedAgent}` as produced
by the structured-output planning/re-planning calls. -/
structure TaskSpec where
  title : String
  description : String
  assignedAgent : AgentRole
deriving DecidableEq

/-- JavaScript `list.map((x, i) => f(i, x))`. -/
def jsMapIdx (f : Nat → α → β) (l : List α) : List β := go 0 l where
  go : Nat → List α → List β
    | _, [] => []
    | i, a :: t => f i a :: go (i + 1) t

/-- `{ id: "task-" + Date.now() + "-" + i, ..., status: "pending" }`, the
task constructor used by both createSupervisorPlan and the re-planning
branch of processNextStep. -/
def mkPendingTask (now : Int) (i : Nat) (t : TaskSpec) : Task :=
  { id := "task-" ++ toString now ++ "-" ++ toString i
    title := t.title
    description := t.description
    assignedAgent := t.assignedAgent
    status := .pending
    result := none
    usage := none }

/-- The planning prompt (system instruction followed by the user request
and the JSON directive). -/
def planPrompt (prompts : AgentPrompts) (query : String) : String :=
  promptOf prompts .SUPERVISOR ++ "\n\nUser Request: \"" ++ query ++
    "\"\n\nReturn a JSON array of tasks."

structure PlanResult where
  tasks : List Task
  usage : Nat
  prompt : String

/-- geminiService.ts: createSupervisorPlan.  Throws on any gateway error
and on a JSON.parse failure (its try/catch logs and rethrows). -/
def createSupervisorPlan (now : Int) (prompts : AgentPrompts) (query : String)
    (outcome : Except GenError (List TaskSpec × Option Nat)) :
    Except GenError PlanResult :=
  let fullPrompt := planPrompt prompts query
  match outcome with
  | .error e => .error e
  | .ok (tasksRaw, usage) =>
    .ok { tasks := jsMapIdx (mkPendingTask now) tasksRaw
          usage := usage.getD 0
          prompt := fullPrompt }

/-- The fixed instruction tail of the re-planning prompt (the evaluation
directions and the max-5-new-tasks scope constraint; literal text
abbreviated, no claim reads it). -/
def replanInstructionTail : String :=
  "\n\nYour Task: Evaluate the progress." ++
  "\n\nCRITICAL SCOPE CONSTRAINTS: maximum of 5 new tasks." ++
  "\n\nReturn a JSON array of the remaining tasks."

/-- One completed-task summary line of the re-planning prompt:
result text truncated via substring(0, 300); an absent or empty result
(both falsy) renders as "Done". -/
def completedSummaryLine (t : Task) : String :=
  "- [" ++ roleName t.assignedAgent ++ "] " ++ t.title ++ ": " ++
    (match t.result with
     | some r => if r.isEmpty then "Done" else r.take 300 ++ "..."
     | none => "Done")

def replanPrompt (prompts : AgentPrompts) (query : String)
    (completedTasks remainingTasks : List Task) : String :=
  promptOf prompts .SUPERVISOR ++
    "\n\nOriginal Objective: \"" ++ query ++ "\"" ++
    "\n\nProgress so far (Completed Tasks):\n" ++
    String.intercalate "\n" (completedTasks.map completedSummaryLine) ++
    "\n\nCurrent Remaining Plan:\n" ++
    String.intercalate "\n" (remainingTasks.map fun t =>
      "- " ++ t.title ++ " (" ++ roleName t.assignedAgent ++ ")") ++
    replanInstructionTail

structure ReplanResult where
  tasks : List TaskSpec
  usage : Nat
  prompt : String

/-- geminiService.ts: updateSupervisorPlan.  Never throws: its catch block
returns `{ tasks: remainingTasks, usage: 0, prompt }` on any failure
(gateway error or JSON.parse failure), and the caller only ever reads the
title / description / assignedAgent fields of the returned items. -/
def updateSupervisorPlan (prompts : AgentPrompts) (query : String)
    (completedTasks remainingTasks : List Task)
    (outcome : Except GenError (List TaskSpec × Option Nat)) : ReplanResult :=
  let fullPrompt := replanPrompt prompts query completedTasks remainingTasks
  match outcome with
  | .ok (tasksRaw, usage) =>
    { tasks := tasksRaw, usage := usage.getD 0, prompt := fullPrompt }
  | .error _ =>
    -- Fallback to existing if AI fails
    { tasks := remainingTasks.map fun t =>
        { title := t.title, description := t.description,
          assignedAgent := t.assignedAgent }
      usage := 0
      prompt := fullPrompt }

/-- The worker prompt: system instruction, task, and prior context (the
"No previous context." sentence is the falsy-context fallback). -/
def execPrompt (prompts : AgentPrompts) (task : Task) (context : String) :
    String :=
  promptOf prompts task.assignedAgent ++
    "\n\nYour Task: " ++ task.title ++
    "\nDetails: " ++ task.description ++
    "\n\nContext (Results from previous steps):\n" ++
    (if context.isEmpty then
      "No previous context. You are starting the workflow." else context)

/-- The raw pieces of a worker-call response the source reads: text,
token count, and grounding-chunk URIs. -/
structure ExecResponse where
  text : String
  usage : Option Nat
  sources : List String
deriving DecidableEq

structure ExecResult where
  text : String
  sources : List String
  usage : Nat
  prompt : String

/-- `response.text || "Task completed, but no text output generated."`. -/
def execText (r : ExecResponse) : String :=
  if r.text.isEmpty then "Task completed, but no text output generated."
  else r.text

/-- geminiService.ts: executeAgentTask.  Throws on any gateway error; an
empty response text is replaced by a placeholder. -/
def executeAgentTask (prompts : AgentPrompts) (task : Task) (context : String)
    (outcome : Except GenError ExecResponse) : Except GenError ExecResult :=
  let fullPrompt := execPrompt prompts task context
  match outcome with
  | .error e => .error e
  | .ok r =>
    .ok { text := execText r
          sources := r.sources
          usage := r.usage.getD 0
          prompt := fullPrompt }

def finalPrompt (prompts : AgentPrompts) (context : String) : String :=
  promptOf prompts .SUPERVISOR ++
    "\n\nThe team has finished all tasks.\nHere is the accumulated work logs:\n"
    ++ context ++
    "\n\nPlease compile this into a final, polished output for the user."

/-- JS string conversion of a thrown Error value, as used in
`"Error generating final output: " + error`. -/
def genErrorToString (e : GenError) : String := "Error: " ++ e.message

structure FinalResult where
  text : String
  usage : Nat
  prompt : String

/-- geminiService.ts: superviseFinalOutput.  Never throws: the catch block
returns the error rendered into the text with zero usage. -/
def superviseFinalOutput (prompts : AgentPrompts) (context : String)
    (outcome : Except GenError (String × Option Nat)) : FinalResult :=
  let fullPrompt := finalPrompt prompts context
  match outcome with
  | .ok (text, usage) =>
    { text := if text.isEmpty then "Final output generation failed." else text
      usage := usage.getD 0
      prompt := fullPrompt }
  | .error e =>
    { text := "Error generating final output: " ++ genErrorToString e
      usage := 0
      prompt := fullPrompt }

/-! ## Mission state machine (App.tsx: processNextStep and handlers) -/

/-- App.tsx: addLog.  The Math.random id is modelled by a deterministic
fresh id (the current log count); timestamp is the ambient time. -/
def addLog (now : Int) (s : AppState) (agent : AgentRole) (message : String)
    (type : LogType) (metadata : Option (List String)) : AppState :=
  { s with logs := s.logs ++
      [{ id := toString s.logs.length, timestamp := now, agent := agent,
         message := message, type := type, metadata := metadata }] }

/-- The catch block of processNextStep (App.tsx lines 304-316): classify
the thrown error, append one error-kind log entry, and pause the mission.
Note that the quota test on err.message here is case-sensitive, unlike the
gateway classification. -/
def stepCatch (now : Int) (s : AppState) (e : GenError) : AppState :=
  let errMsg := e.message
  let isQuota := e.status == some 429 || strIncludes errMsg "429" ||
    strIncludes errMsg "quota"
  if isQuota then
    { addLog now s .SUPERVISOR
        "CRITICAL: Rate limit exceeded. Pausing mission. Resume when quota resets."
        .error none with status := .paused }
  else
    { addLog now s .SUPERVISOR ("Error: " ++ errMsg) .error none with
        status := .paused }

/-- The in-progress mark: map over tasks replacing the entry at
taskIndex with a copy whose status is in-progress. -/
def markInProgressAt (taskIndex : Nat) (tasks : List Task) : List Task :=
  jsMapIdx (fun i t =>
    if i = taskIndex then { t with status := .inProgress } else t) tasks

/-- The completion mark: map over tasks replacing the entry at taskIndex
with a copy marked completed carrying the result text and token count (the
`updatedTasksWithCurrentResult` construction). -/
def markCompletedAt (taskIndex : Nat) (text : String) (usage : Nat)
    (tasks : List Task) : List Task :=
  jsMapIdx (fun i t =>
    if i = taskIndex then
      { t with status := .completed, result := some text, usage := some usage }
    else t) tasks

/-- The final setState of a successful task-execution step:
`currentTaskIndex + 1`, `tokenUsage + result.usage + additionalUsage`,
`tasks: nextTasks`, all on the freshest state. -/
def finishStep (resUsage additionalUsage : Nat) (nextTasks : List Task)
    (s : AppState) : AppState :=
  { s with
      currentTaskIndex := s.currentTaskIndex + 1
      tokenUsage := s.tokenUsage + resUsage + additionalUsage
      tasks := nextTasks }

/-- The per-step oracles: the outcome each service call would produce if
the step makes that call. -/
structure StepOracles where
  plan : Except GenError (List TaskSpec × Option Nat)
  exec : Except GenError ExecResponse
  replan : Except GenError (List TaskSpec × Option Nat)
  final : Except GenError (String × Option Nat)

/-- The planning branch of processNextStep (App.tsx lines 198-214).
`current` is the entry snapshot, `s1` the running state after the
rate-limit check. -/
def planningStep (query : String) (now : Int) (oc : StepOracles)
    (current s1 : AppState) : AppState :=
  let s2 := addLog now s1 .SUPERVISOR
    "Thinking... Analyzing request to build granular plan." .plan none
  match createSupervisorPlan now current.agentPrompts query oc.plan with
  | .error e => stepCatch now s2 e
  | .ok pr =>
    let s3 := addLog now s2 .SUPERVISOR
      ("[SYSTEM] Supervisor Planning Prompt:\n" ++ pr.prompt) .info none
    let s4 := { s3 with
                  status := .working
                  tasks := pr.tasks
                  currentTaskIndex := 0
                  tokenUsage := s3.tokenUsage + pr.usage }
    addLog now s4 .SUPERVISOR
      ("Plan created with " ++ toString pr.tasks.length ++ " tasks. (Used " ++
        toString pr.usage ++ " tokens)") .plan none

/-- The final-synthesis branch of processNextStep (App.tsx lines 218-239).
The `localStorage.removeItem(AUTOSAVE_KEY)` on success is a persistence
side effect outside AppState. -/
def synthesisStep (cfg : RateLimitConfig) (now : Int) (oc : StepOracles)
    (current s1 : AppState) : AppState :=
  let s2 := addLog now s1 .SUPERVISOR
    "All tasks completed. Compiling final report..." .info none
  match checkRateLimit cfg now s2 with
  | (false, s3) => s3
  | (true, s3) =>
    let context := String.intercalate "\n\n" (current.tasks.map fun t =>
      "Task: " ++ t.title ++ "\nResult: " ++ t.result.getD "undefined")
    let fr := superviseFinalOutput current.agentPrompts context oc.final
    let s4 := addLog now s3 .SUPERVISOR
      ("[SYSTEM] Final Synthesis Prompt:\n" ++ fr.prompt) .info none
    let s5 := { s4 with
                  status := .completed
                  finalOutput := some fr.text
                  tokenUsage := s4.tokenUsage + fr.usage }
    addLog now s5 .SUPERVISOR
      ("Final output delivered. (Used " ++ toString fr.usage ++ " tokens)")
      .result none

/-- The task-execution branch of processNextStep (App.tsx lines 241-302),
including the re-planning sub-step.  `current` is the entry snapshot:
`updatedTasksWithCurrentResult` is built from `current.tasks`, while the
in-progress mark and the final commit go through the running state,
exactly as in the source. -/
def executionStep (query : String) (cfg : RateLimitConfig) (now : Int)
    (oc : StepOracles) (current s1 : AppState) : AppState :=
  let taskIndex := current.currentTaskIndex
  match current.tasks[taskIndex]? with
  | none => s1   -- unreachable: the caller established taskIndex < length
  | some task =>
    let s2 := { s1 with tasks := markInProgressAt taskIndex s1.tasks }
    let s3 := addLog now s2 .SUPERVISOR
      ("Starting Task " ++ toString (taskIndex + 1) ++ "/" ++
        toString current.tasks.length ++ ": " ++ task.title ++ " (" ++
        roleName task.assignedAgent ++ ")") .action none
    let context := String.intercalate "\n\n"
      ((current.tasks.take taskIndex).map fun t =>
        "[Completed Task: " ++ t.title ++ "]\nResult: " ++
          t.result.getD "undefined")
    match executeAgentTask current.agentPrompts task context oc.exec with
    | .error e => stepCatch now s3 e
    | .ok res =>
      let s4 := addLog now s3 task.assignedAgent
        ("[SYSTEM] Agent Prompt:\n" ++ res.prompt) .info none
      let s5 := addLog now s4 task.assignedAgent
        ("[SYSTEM] Agent Output:\n" ++ res.text) .info none
      let s6 := addLog now s5 task.assignedAgent
        ("Task Complete. (Used " ++ toString res.usage ++ " tokens)")
        .result (some res.sources)
      let updated := markCompletedAt taskIndex res.text res.usage current.tasks
      let remainingCount := updated.length - (taskIndex + 1)
      if 0 < remainingCount then
        match checkRateLimit cfg now s6 with
        | (true, sA) =>
          let sB := addLog now sA .SUPERVISOR
            "Evaluating progress and checking if plan needs updates..."
            .plan none
          let completedTasks := updated.take (taskIndex + 1)
          let remainingTasks := updated.drop (taskIndex + 1)
          let rp := updateSupervisorPlan current.agentPrompts query
            completedTasks remainingTasks oc.replan
          let sC := addLog now sB .SUPERVISOR
            ("[SYSTEM] Re-planning Prompt:\n" ++ rp.prompt) .info none
          let newRemainingTasks := jsMapIdx (mkPendingTask now) rp.tasks
          let sD := addLog now sC .SUPERVISOR
            ("Plan updated. Remaining tasks: " ++
              toString newRemainingTasks.length ++ " (Used " ++
              toString rp.usage ++ " tokens)") .plan none
          finishStep res.usage rp.usage (completedTasks ++ newRemainingTasks) sD
        | (false, sA) =>
          -- rate limiter denied the re-planning call: the replanning block
          -- is skipped (cooldown is committed) and the step still commits
          -- the executed task
          finishStep res.usage 0 updated sA
      else
        finishStep res.usage 0 updated s6

/-- App.tsx: processNextStep.  `current = stateRef.current` is the entry
snapshot; each setState reads the freshest state, modelled by threading
the running state through the branch helpers. -/
def processNextStep (query : String) (cfg : RateLimitConfig) (now : Int)
    (oc : StepOracles) (s0 : AppState) : AppState :=
  let current := s0
  if current.status ≠ .working ∧ current.status ≠ .planning then s0
  else
    match checkRateLimit cfg now s0 with
    | (false, s1) => s1
    | (true, s1) =>
      if current.status = .planning then planningStep query now oc current s1
      else if current.tasks.length ≤ current.currentTaskIndex then
        synthesisStep cfg now oc current s1
      else executionStep query cfg now oc current s1

/-- App.tsx: handleRestart (the confirmed branch): reset to INITIAL_STATE
except the retained agent prompts, status planning, fresh window. -/
def handleRestart (now : Int) (s : AppState) : AppState :=
  { INITIAL_STATE now with
      status := .planning
      windowStartTime := now
      agentPrompts := s.agentPrompts }

/-- App.tsx: handleLoadSession (and the identical autosave-resume merge on
mount): spread INITIAL_STATE then the loaded state, replace agentPrompts
by `session.state.agentPrompts || INITIAL_STATE.agentPrompts` (wholesale:
an absent map is replaced by the defaults, a present object — even a
partially populated one — is truthy and kept as-is), and force status
paused. -/
def handleLoadSession (session : SavedSession) : AppState :=
  { session.state with
      agentPrompts :=
        match session.state.agentPrompts with
        | .absent => (INITIAL_STATE 0).agentPrompts
        | .map m => .map m
      status := .paused }

deriving instance DecidableEq for Except

/-- The number of error-kind entries in a log. -/
def errorLogCount (logs : List LogEntry) : Nat :=
  logs.countP fun le => le.type == .error

/-! ## Concrete fixtures for witnesses and counterexamples -/

/-- Witness state for C1: 850 of 1000 tokens used, 30 s into a 1-minute
window. -/
def c1State : AppState :=
  { status := .working, tasks := [], logs := [], currentTaskIndex := 0,
    tokenUsage := 850, windowStartTime := 0, nextAllowedQueryTime := 0,
    finalOutput := none, agentPrompts := .map DEFAULT_AGENT_PROMPTS }

def c1Config : RateLimitConfig :=
  { maxTokens := 1000, periodValue := 1, periodUnit := .minutes,
    autoResumeMinutes := 0 }

/-- C7 failing input: in cooldown at 85% of a 1000-token / 1-minute
budget, wait expiring at t = 60000. -/
def c7State : AppState :=
  { status := .cooldown, tasks := [], logs := [], currentTaskIndex := 0,
    tokenUsage := 850, windowStartTime := 0, nextAllowedQueryTime := 60000,
    finalOutput := none, agentPrompts := .map DEFAULT_AGENT_PROMPTS }

def c7Config : RateLimitConfig :=
  { maxTokens := 1000, periodValue := 1, periodUnit := .minutes,
    autoResumeMinutes := 0 }

/-- C3 failing input: the first key yields a SAFETY-blocked response (no
text, first candidate finishReason SAFETY), the second key succeeds. -/
def attemptC3 : String → Except GenError RawResponse := fun k =>
  if k = "k1" then
    .ok { text := "", candidates := [{ finishReason := some "SAFETY" }] }
  else
    .ok { text := "ok", candidates := [] }

/-- A content-block failure as classified by the step-level catch (no
status, no code, a non-quota message). -/
def blockedErr : GenError :=
  { status := none, code := none,
    message := "Content generation blocked: SAFETY" }

def c2Task : Task :=
  { id := "t1", title := "T1", description := "d1",
    assignedAgent := .RESEARCHER, status := .pending, result := none,
    usage := none }

/-- C2 counterexample state: one pending task about to execute. -/
def c2State : AppState :=
  { status := .working, tasks := [c2Task], logs := [], currentTaskIndex := 0,
    tokenUsage := 0, windowStartTime := 0, nextAllowedQueryTime := 0,
    finalOutput := none, agentPrompts := .map DEFAULT_AGENT_PROMPTS }

def c2Config : RateLimitConfig :=
  { maxTokens := 1000, periodValue := 1, periodUnit := .minutes,
    autoResumeMinutes := 0 }

/-- C2 oracles: every model call fails with a content-block error. -/
def c2Oracles : StepOracles :=
  { plan := .error blockedErr, exec := .error blockedErr,
    replan := .error blockedErr, final := .error blockedErr }

def c10Task : Task :=
  { id := "t1", title := "T1", description := "d1", assignedAgent := .WRITER,
    status := .completed, result := some "r1", usage := some 10 }

/-- C10 witness state: all tasks done, about to synthesize. -/
def c10State : AppState :=
  { status := .working, tasks := [c10Task], logs := [], currentTaskIndex := 1,
    tokenUsage := 10, windowStartTime := 0, nextAllowedQueryTime := 0,
    finalOutput := none, agentPrompts := .map DEFAULT_AGENT_PROMPTS }

def c10Config : RateLimitConfig :=
  { maxTokens := 1000, periodValue := 1, periodUnit := .minutes,
    autoResumeMinutes := 0 }

def serverErr : GenError :=
  { status := some 500, code := none, message := "Internal server error" }

def c4TaskA : Task :=
  { id := "a1", title := "A1", description := "da", assignedAgent := .RESEARCHER,
    status := .pending, result := none, usage := none }

def c4TaskB : Task :=
  { id := "b1", title := "B1", description := "db", assignedAgent := .ANALYST,
    status := .pending, result := none, usage := none }

/-- C4 witness state: two pending tasks, about to execute the first and
then re-plan. -/
def c4State : AppState :=
  { status := .working, tasks := [c4TaskA, c4TaskB], logs := [],
    currentTaskIndex := 0, tokenUsage := 0, windowStartTime := 0,
    nextAllowedQueryTime := 0, finalOutput := none,
    agentPrompts := .map DEFAULT_AGENT_PROMPTS }

def c4Config : RateLimitConfig :=
  { maxTokens := 1000, periodValue := 1, periodUnit := .minutes,
    autoResumeMinutes := 0 }

def c4Exec : ExecResponse :=
  { text := "result A", usage := some 42, sources := [] }

def c4Spec : TaskSpec :=
  { title := "N1", description := "nd", assignedAgent := .WRITER }

/-- C4 oracles: execution succeeds and re-planning returns one new task. -/
def c4Oracles : StepOracles :=
  { plan := .error serverErr, exec := .ok c4Exec,
    replan := .ok ([c4Spec], some 7), final := .error serverErr }

def c5TaskA : Task :=
  { id := "t0", title := "T0", description := "d0", assignedAgent := .RESEARCHER,
    status := .pending, result := none, usage := none }

/-- C5 counterexample remaining task, with a recognisable id. -/
def c5TaskB : Task :=
  { id := "task-orig", title := "T1", description := "d1",
    assignedAgent := .WRITER, status := .pending, result := none,
    usage := none }

def c5State : AppState :=
  { status := .working, tasks := [c5TaskA, c5TaskB], logs := [],
    currentTaskIndex := 0, tokenUsage := 0, windowStartTime := 0,
    nextAllowedQueryTime := 0, finalOutput := none,
    agentPrompts := .map DEFAULT_AGENT_PROMPTS }

def c5Config : RateLimitConfig :=
  { maxTokens := 1000, periodValue := 1, periodUnit := .minutes,
    autoResumeMinutes := 0 }

def c5Exec : ExecResponse :=
  { text := "result0", usage := some 5, sources := [] }

/-- C5 oracles: execution succeeds, re-planning fails. -/
def c5Oracles : StepOracles :=
  { plan := .error serverErr, exec := .ok c5Exec,
    replan := .error serverErr, final := .error serverErr }

/-- C10 oracles: the final-synthesis call fails. -/
def c10Oracles : StepOracles :=
  { plan := .error serverErr, exec := .error serverErr,
    replan := .error serverErr, final := .error serverErr }

/-- C6 witness: every role prefers key "B"; the shared pool is A, B, C. -/
def c6ApiKeys : AgentRole → String := fun _ => "B"

def c6Pool : List String := ["A", "B", "C"]

def c6ErrOf : String → GenError := fun k =>
  { status := some 429, code := none, message := "quota hit on " ++ k }

/-- C6 witness attempts: every key fails with a per-key quota error. -/
def c6Attempt : String → Except GenError RawResponse := fun k =>
  .error (c6ErrOf k)

/-- C8 witness state: one pending task at index 0 while working. -/
def c8Task : Task :=
  { id := "w1", title := "W1", description := "dw", assignedAgent := .CODER,
    status := .pending, result := none, usage := none }

def c8State : AppState :=
  { status := .working, tasks := [c8Task], logs := [], currentTaskIndex := 0,
    tokenUsage := 0, windowStartTime := 0, nextAllowedQueryTime := 0,
    finalOutput := none, agentPrompts := .map DEFAULT_AGENT_PROMPTS }

def c8Config : RateLimitConfig :=
  { maxTokens := 1000, periodValue := 1, periodUnit := .minutes,
    autoResumeMinutes := 0 }

def c8Exec : ExecResponse :=
  { text := "done", usage := some 3, sources := [] }

def c8Oracles : StepOracles :=
  { plan := .error serverErr, exec := .ok c8Exec,
    replan := .error serverErr, final := .error serverErr }

/-- C9 counterexample: a loaded agentPrompts object carrying only the
Supervisor key (the other five roles absent). -/
def c9Partial : AgentRole → Option String := fun r =>
  if r = .SUPERVISOR then some "custom supervisor prompt" else none

def c9Config : RateLimitConfig :=
  { maxTokens := 1000, periodValue := 1, periodUnit := .minutes,
    autoResumeMinutes := 0 }

/-- A session whose saved state carries the partial prompts map. -/
def c9PartialSession : SavedSession :=
  { id := "s-partial", timestamp := 0, query := "q", config := c9Config,
    state :=
      { status := .working, tasks := [], logs := [], currentTaskIndex := 0,
        tokenUsage := 0, windowStartTime := 0, nextAllowedQueryTime := 0,
        finalOutput := none, agentPrompts := .map c9Partial } }

/-- A session whose saved state has no agentPrompts property at all. -/
def c9AbsentSession : SavedSession :=
  { id := "s-absent", timestamp := 0, query := "q", config := c9Config,
    state :=
      { status := .working, tasks := [], logs := [], currentTaskIndex := 0,
        tokenUsage := 0, windowStartTime := 0, nextAllowedQueryTime := 0,
        finalOutput := none, agentPrompts := .absent } }

/-! ## Helper lemmas -/

theorem jsMapIdx_go_getElem? (f : Nat → α → β) :
    ∀ (l : List α) (i n : Nat),
      (jsMapIdx.go f i l)[n]? = (l[n]?).map (f (i + n)) := by
  intro l
  induction l with
  | nil => intro i n; simp [jsMapIdx.go]
  | cons a t ih =>
    intro i n
    cases n with
    | zero => simp [jsMapIdx.go]
    | succ n =>
      simp only [jsMapIdx.go, List.getElem?_cons_succ, ih]
      have : i + 1 + n = i + (n + 1) := by omega
      rw [this]

theorem jsMapIdx_getElem? (f : Nat → α → β) (l : List α) (n : Nat) :
    (jsMapIdx f l)[n]? = (l[n]?).map (f n) := by
  simpa using jsMapIdx_go_getElem? f l 0 n

theorem jsMapIdx_go_length (f : Nat → α → β) :
    ∀ (l : List α) (i : Nat), (jsMapIdx.go f i l).length = l.length := by
  intro l
  induction l with
  | nil => intro i; rfl
  | cons a t ih => intro i; simp [jsMapIdx.go, ih]

theorem jsMapIdx_length (f : Nat → α → β) (l : List α) :
    (jsMapIdx f l).length = l.length := jsMapIdx_go_length f l 0

theorem markInProgressAt_length (i : Nat) (l : List Task) :
    (markInProgressAt i l).length = l.length := jsMapIdx_length _ l

theorem markCompletedAt_length (i : Nat) (tx : String) (u : Nat)
    (l : List Task) : (markCompletedAt i tx u l).length = l.length :=
  jsMapIdx_length _ l

theorem jsMapIdx_go_map_comp (f : Nat → α → β) (g : β → γ) (h : α → γ)
    (hcomp : ∀ i a, g (f i a) = h a) :
    ∀ (l : List α) (i : Nat), (jsMapIdx.go f i l).map g = l.map h := by
  intro l
  induction l with
  | nil => intro i; rfl
  | cons a t ih => intro i; simp [jsMapIdx.go, hcomp, ih]

/-- Mapping a componentwise projection over a JS indexed map collapses to
a plain map when the projection ignores the index. -/
theorem jsMapIdx_map_comp (f : Nat → α → β) (g : β → γ) (h : α → γ)
    (hcomp : ∀ i a, g (f i a) = h a) (l : List α) :
    (jsMapIdx f l).map g = l.map h := jsMapIdx_go_map_comp f g h hcomp l 0

theorem jsMapIdx_go_forall_mem (f : Nat → α → β) (P : β → Prop)
    (hf : ∀ i a, P (f i a)) :
    ∀ (l : List α) (i : Nat) (b : β), b ∈ jsMapIdx.go f i l → P b := by
  intro l
  induction l with
  | nil => intro i b hb; simp [jsMapIdx.go] at hb
  | cons a t ih =>
    intro i b hb
    simp only [jsMapIdx.go, List.mem_cons] at hb
    rcases hb with hb | hb
    · rw [hb]; exact hf i a
    · exact ih (i + 1) b hb

theorem jsMapIdx_forall_mem (f : Nat → α → β) (P : β → Prop)
    (hf : ∀ i a, P (f i a)) (l : List α) :
    ∀ b ∈ jsMapIdx f l, P b := fun b hb =>
  jsMapIdx_go_forall_mem f P hf l 0 b hb

/-- Marking the executed task completed leaves the strict suffix after it
untouched. -/
theorem markCompletedAt_drop_succ (i : Nat) (tx : String) (u : Nat)
    (l : List Task) :
    (markCompletedAt i tx u l).drop (i + 1) = l.drop (i + 1) := by
  apply List.ext_getElem?
  intro n
  rw [List.getElem?_drop, List.getElem?_drop, markCompletedAt,
    jsMapIdx_getElem?]
  have hne : ¬ (i + 1 + n = i) := by omega
  cases l[i + 1 + n]? with
  | none => rfl
  | some t => simp [hne]

theorem take_append_eq_of_length (A B : List α) (k : Nat)
    (h : A.length = k) : (A ++ B).take k = A := by
  subst h; exact List.take_left A B

theorem drop_append_eq_of_length (A B : List α) (k : Nat)
    (h : A.length = k) : (A ++ B).drop k = B := by
  subst h; exact List.drop_left A B

/-- The rate-limit check permits and leaves the state untouched when the
window has not elapsed and usage is strictly below the 80% threshold. -/
theorem checkRateLimit_pass (cfg : RateLimitConfig) (now : Int) (s : AppState)
    (hwindow : now - s.windowStartTime ≤ periodMsOf cfg)
    (hbelow : 100 * s.tokenUsage < 80 * cfg.maxTokens) :
    checkRateLimit cfg now s = (true, s) := by
  unfold checkRateLimit
  rw [if_neg (not_lt.mpr hwindow), if_neg (not_le.mpr hbelow)]

/-- Whatever it decides, the rate-limit check never touches the task list,
the task index, or the log. -/
theorem checkRateLimit_snd (cfg : RateLimitConfig) (now : Int) (s : AppState) :
    (checkRateLimit cfg now s).2.currentTaskIndex = s.currentTaskIndex ∧
    (checkRateLimit cfg now s).2.tasks = s.tasks ∧
    (checkRateLimit cfg now s).2.logs = s.logs := by
  unfold checkRateLimit
  dsimp only
  split
  · exact ⟨rfl, rfl, rfl⟩
  · split
    · exact ⟨rfl, rfl, rfl⟩
    · exact ⟨rfl, rfl, rfl⟩

/-- The attempted-key trace is always an in-order prefix of the key list
given to the failover loop. -/
theorem fallback_trace_in_order (attempt : String → Except GenError RawResponse) :
    ∀ (ks : List String) (last : Option GenError),
      ∃ rest, (generateContentWithFallback attempt ks last).2 ++ rest = ks := by
  intro ks
  induction ks with
  | nil => intro last; exact ⟨[], rfl⟩
  | cons k rest ih =>
    intro last
    unfold generateContentWithFallback
    dsimp only
    split
    · exact ⟨rest, rfl⟩
    · rename_i e heq
      split
      · exact ⟨rest, rfl⟩
      · split
        · obtain ⟨r2, hr2⟩ := ih (some e)
          exact ⟨r2, by simp [hr2]⟩
        · exact ⟨rest, rfl⟩

/-- A clean success on the first key of the list returns immediately with
only that key attempted. -/
theorem fallback_first_success (attempt : String → Except GenError RawResponse)
    (k : String) (ks : List String) (last : Option GenError) (r : RawResponse)
    (ha : attempt k = .ok r) (hb : blockedCheck r = none) :
    generateContentWithFallback attempt (k :: ks) last = (.ok r, [k]) := by
  simp [generateContentWithFallback, ha, hb]

/-- When every key in the list fails with a retriable (non-global) error,
the loop attempts them all and propagates the error of the last key. -/
theorem fallback_exhaustion (attempt : String → Except GenError RawResponse)
    (errOf : String → GenError) :
    ∀ (ks : List String) (k : String),
      (∀ x ∈ ks ++ [k], attempt x = .error (errOf x) ∧
        isGlobalQuotaExhausted (errOf x) = false ∧
        (isQuotaError (errOf x) || isServerError (errOf x)) = true) →
      ∀ last, generateContentWithFallback attempt (ks ++ [k]) last =
        (.error (errOf k), ks ++ [k]) := by
  intro ks
  induction ks with
  | nil =>
    intro k hall last
    obtain ⟨ha, hg, hr⟩ := hall k (by simp)
    simp [generateContentWithFallback, ha, hg, hr]
  | cons a t ih =>
    intro k hall last
    obtain ⟨ha, hg, hr⟩ := hall a (by simp)
    have ih' := ih k (fun x hx => hall x (List.mem_cons_of_mem a hx))
    simp [generateContentWithFallback, ha, hg, hr, ih' (some (errOf a))]

theorem checkRateLimit_snd_currentTaskIndex (cfg : RateLimitConfig)
    (now : Int) (s : AppState) :
    (checkRateLimit cfg now s).2.currentTaskIndex = s.currentTaskIndex :=
  (checkRateLimit_snd cfg now s).1

theorem checkRateLimit_snd_tasks (cfg : RateLimitConfig) (now : Int)
    (s : AppState) : (checkRateLimit cfg now s).2.tasks = s.tasks :=
  (checkRateLimit_snd cfg now s).2.1

theorem finishStep_currentTaskIndex (a b : Nat) (ts : List Task)
    (s : AppState) :
    (finishStep a b ts s).currentTaskIndex = s.currentTaskIndex + 1 := rfl

theorem finishStep_tasks (a b : Nat) (ts : List Task) (s : AppState) :
    (finishStep a b ts s).tasks = ts := rfl

/-- The step-level catch handler: pauses, appends exactly one error-kind
log entry, and touches nothing else. -/
theorem stepCatch_spec (now : Int) (s : AppState) (e : GenError) :
    (stepCatch now s e).status = .paused ∧
    (stepCatch now s e).tasks = s.tasks ∧
    (stepCatch now s e).currentTaskIndex = s.currentTaskIndex ∧
    (stepCatch now s e).tokenUsage = s.tokenUsage ∧
    (stepCatch now s e).logs.length = s.logs.length + 1 ∧
    errorLogCount (stepCatch now s e).logs = errorLogCount s.logs + 1 := by
  unfold stepCatch addLog errorLogCount
  dsimp only
  split <;>
    simp [List.countP_append, List.countP_cons, List.countP_nil]

theorem stepCatch_currentTaskIndex (now : Int) (s : AppState) (e : GenError) :
    (stepCatch now s e).currentTaskIndex = s.currentTaskIndex :=
  (stepCatch_spec now s e).2.2.1

theorem stepCatch_tasks (now : Int) (s : AppState) (e : GenError) :
    (stepCatch now s e).tasks = s.tasks :=
  (stepCatch_spec now s e).2.1

/-- The final-synthesis branch never changes the task index or the task
list, whatever the rate limiter and the model call do. -/
theorem synthesisStep_fields (cfg : RateLimitConfig) (now : Int)
    (oc : StepOracles) (current s1 : AppState) :
    (synthesisStep cfg now oc current s1).currentTaskIndex =
      s1.currentTaskIndex ∧
    (synthesisStep cfg now oc current s1).tasks = s1.tasks := by
  unfold synthesisStep
  dsimp only
  split
  all_goals
    rename_i s3 heq
    have hI := congrArg AppState.currentTaskIndex (congrArg Prod.snd heq)
    have hT := congrArg AppState.tasks (congrArg Prod.snd heq)
    rw [checkRateLimit_snd_currentTaskIndex] at hI
    rw [checkRateLimit_snd_tasks] at hT
    exact ⟨hI.symm, hT.symm⟩

/-- In the task-execution branch the index never decreases and, because
the executed index was in range, the committed index never exceeds the
resulting task-list length. -/
theorem executionStep_bounds (query : String) (cfg : RateLimitConfig)
    (now : Int) (oc : StepOracles) (current s1 : AppState)
    (hidx : current.currentTaskIndex < current.tasks.length)
    (hI1 : s1.currentTaskIndex = current.currentTaskIndex)
    (hT1 : s1.tasks = current.tasks) :
    current.currentTaskIndex ≤
      (executionStep query cfg now oc current s1).currentTaskIndex ∧
    (executionStep query cfg now oc current s1).currentTaskIndex ≤
      (executionStep query cfg now oc current s1).tasks.length := by
  have hL1 := congrArg List.length hT1
  unfold executionStep
  dsimp only
  split
  · -- unreachable arm: the step returns the untouched running state
    constructor
    · omega
    · rw [hT1]; omega
  · rename_i task htask
    split
    · -- the execution call failed: the catch handler commits nothing new
      rename_i e heq2
      constructor
      · rw [stepCatch_currentTaskIndex]
        show current.currentTaskIndex ≤ s1.currentTaskIndex
        omega
      · rw [stepCatch_currentTaskIndex, stepCatch_tasks]
        show s1.currentTaskIndex ≤
          (markInProgressAt current.currentTaskIndex s1.tasks).length
        rw [markInProgressAt_length]
        omega
    · rename_i res heq2
      split
      · -- re-planning considered: split on the inner rate-limit check
        split
        · rename_i sA heqA
          have hIA := congrArg AppState.currentTaskIndex
            (congrArg Prod.snd heqA)
          rw [checkRateLimit_snd_currentTaskIndex] at hIA
          have hIA' : s1.currentTaskIndex = sA.currentTaskIndex := hIA
          constructor
          · rw [finishStep_currentTaskIndex]
            show current.currentTaskIndex ≤ sA.currentTaskIndex + 1
            omega
          · rw [finishStep_currentTaskIndex, finishStep_tasks]
            show sA.currentTaskIndex + 1 ≤ _
            rw [List.length_append, List.length_take, markCompletedAt_length]
            have hmin : min (current.currentTaskIndex + 1)
                current.tasks.length = current.currentTaskIndex + 1 :=
              Nat.min_eq_left (by omega)
            omega
        · rename_i sA heqA
          have hIA := congrArg AppState.currentTaskIndex
            (congrArg Prod.snd heqA)
          rw [checkRateLimit_snd_currentTaskIndex] at hIA
          have hIA' : s1.currentTaskIndex = sA.currentTaskIndex := hIA
          constructor
          · rw [finishStep_currentTaskIndex]
            show current.currentTaskIndex ≤ sA.currentTaskIndex + 1
            omega
          · rw [finishStep_currentTaskIndex, finishStep_tasks,
              markCompletedAt_length]
            show sA.currentTaskIndex + 1 ≤ current.tasks.length
            omega
      · -- no re-planning: the executed-task commit alone
        constructor
        · rw [finishStep_currentTaskIndex]
          show current.currentTaskIndex ≤ s1.currentTaskIndex + 1
          omega
        · rw [finishStep_currentTaskIndex, finishStep_tasks,
            markCompletedAt_length]
          show s1.currentTaskIndex + 1 ≤ current.tasks.length
          rename_i hrem
          rw [markCompletedAt_length] at hrem
          omega

/-- Reduction of a working-status step whose task-execution call fails:
the step is the catch handler applied to the intermediate state that
already carries the in-progress mark and the action log entry. -/
theorem processNextStep_exec_error_reduction
    (query : String) (cfg : RateLimitConfig) (now : Int) (oc : StepOracles)
    (s : AppState) (e : GenError)
    (hstatus : s.status = .working)
    (hidx : s.currentTaskIndex < s.tasks.length)
    (hwindow : now - s.windowStartTime ≤ periodMsOf cfg)
    (hbelow : 100 * s.tokenUsage < 80 * cfg.maxTokens)
    (hexec : oc.exec = .error e) :
    ∃ sMid, processNextStep query cfg now oc s = stepCatch now sMid e ∧
      sMid.tasks = markInProgressAt s.currentTaskIndex s.tasks ∧
      sMid.currentTaskIndex = s.currentTaskIndex ∧
      sMid.tokenUsage = s.tokenUsage ∧
      sMid.logs.length = s.logs.length + 1 ∧
      errorLogCount sMid.logs = errorLogCount s.logs := by
  have hpass := checkRateLimit_pass cfg now s hwindow hbelow
  have htask : s.tasks[s.currentTaskIndex]? = some (s.tasks[s.currentTaskIndex]) :=
    List.getElem?_eq_getElem hidx
  refine ⟨addLog now { s with tasks := markInProgressAt s.currentTaskIndex s.tasks }
    .SUPERVISOR
    ("Starting Task " ++ toString (s.currentTaskIndex + 1) ++ "/" ++
      toString s.tasks.length ++ ": " ++ (s.tasks[s.currentTaskIndex]).title ++
      " (" ++ roleName (s.tasks[s.currentTaskIndex]).assignedAgent ++ ")")
    .action none, ?_, ?_, ?_, ?_, ?_, ?_⟩
  · unfold processNextStep
    rw [hpass]
    simp only [hstatus, ne_eq]
    rw [if_neg (by simp)]
    rw [if_neg (by simp), if_neg (not_le.mpr hidx)]
    unfold executionStep
    dsimp only
    rw [htask]
    dsimp only
    simp only [executeAgentTask, hexec]
    rw [hstatus]
  · simp [addLog]
  · simp [addLog]
  · simp [addLog]
  · simp [addLog]
  · simp [addLog, errorLogCount, List.countP_append, List.countP_cons,
      List.countP_nil]

/-- Reduction of a working-status step whose task execution succeeds and
which then performs the re-planning sub-step (at least one task remains
and the rate limiter permits): the resulting state is the final commit
over the completed prefix plus the freshly built remaining tasks returned
by updateSupervisorPlan, for some intermediate state sD that preserves
status, index and token usage. -/
theorem processNextStep_exec_ok_replan_reduction
    (query : String) (cfg : RateLimitConfig) (now : Int) (oc : StepOracles)
    (s : AppState) (r : ExecResponse)
    (hstatus : s.status = .working)
    (hrem : s.currentTaskIndex + 1 < s.tasks.length)
    (hwindow : now - s.windowStartTime ≤ periodMsOf cfg)
    (hbelow : 100 * s.tokenUsage < 80 * cfg.maxTokens)
    (hexec : oc.exec = .ok r) :
    (processNextStep query cfg now oc s).tasks =
      ((markCompletedAt s.currentTaskIndex (execText r) (r.usage.getD 0)
          s.tasks).take (s.currentTaskIndex + 1)) ++
        jsMapIdx (mkPendingTask now)
          (updateSupervisorPlan s.agentPrompts query
            ((markCompletedAt s.currentTaskIndex (execText r)
                (r.usage.getD 0) s.tasks).take (s.currentTaskIndex + 1))
            ((markCompletedAt s.currentTaskIndex (execText r)
                (r.usage.getD 0) s.tasks).drop (s.currentTaskIndex + 1))
            oc.replan).tasks ∧
    (processNextStep query cfg now oc s).status = .working ∧
    (processNextStep query cfg now oc s).currentTaskIndex =
      s.currentTaskIndex + 1 ∧
    (processNextStep query cfg now oc s).tokenUsage =
      s.tokenUsage + r.usage.getD 0 +
        (updateSupervisorPlan s.agentPrompts query
          ((markCompletedAt s.currentTaskIndex (execText r)
              (r.usage.getD 0) s.tasks).take (s.currentTaskIndex + 1))
          ((markCompletedAt s.currentTaskIndex (execText r)
              (r.usage.getD 0) s.tasks).drop (s.currentTaskIndex + 1))
          oc.replan).usage := by
  have hidx : s.currentTaskIndex < s.tasks.length := by omega
  have hpass : checkRateLimit cfg now s = (true, s) :=
    checkRateLimit_pass cfg now s hwindow hbelow
  have htask : s.tasks[s.currentTaskIndex]? = some (s.tasks[s.currentTaskIndex]) :=
    List.getElem?_eq_getElem hidx
  unfold processNextStep
  rw [hpass]
  simp only [hstatus, ne_eq]
  rw [if_neg (by simp), if_neg (by simp), if_neg (not_le.mpr hidx)]
  unfold executionStep
  dsimp only
  rw [htask]
  dsimp only
  simp only [executeAgentTask, hexec]
  rw [if_pos (by rw [markCompletedAt_length]; omega)]
  simp only [checkRateLimit]
  split
  · -- the inner rate-limit match returned (true, sA)
    rename_i sA heq
    split at heq
    · -- window-elapsed branch: contradicts hwindow
      exfalso
      rename_i hcond
      simp only [addLog] at hcond
      omega
    · split at heq
      · -- threshold branch returns false, not true
        exact absurd heq (by simp)
      · -- pass branch: sA is the unchanged running state
        rw [Prod.mk.injEq] at heq
        obtain ⟨-, rfl⟩ := heq
        refine ⟨rfl, ?_, ?_, ?_⟩ <;> simp [finishStep, addLog, hstatus]
  · -- the inner rate-limit match returned (false, sA): impossible here
    rename_i sA heq
    split at heq
    · exact absurd heq (by simp)
    · split at heq
      · -- threshold branch: contradicts hbelow
        exfalso
        rename_i hcond
        simp only [addLog] at hcond
        omega
      · exact absurd heq (by simp)

/-! ## Claims -/

/-- The spec predicate `tokenUsage / maxTokens >= 0.80` over exact
rationals agrees with the integer comparison used in the embedding of
checkRateLimit, for every positive maxTokens. -/
theorem threshold_iff (u m : Nat) (hm : 0 < m) :
    ((0.8 : ℚ) ≤ (u : ℚ) / (m : ℚ)) ↔ 80 * m ≤ 100 * u := by
  have hm' : (0 : ℚ) < (m : ℚ) := by exact_mod_cast hm
  rw [le_div_iff₀ hm']
  constructor
  · intro h
    have h100 : (80 : ℚ) * m ≤ 100 * u := by nlinarith
    exact_mod_cast h100
  · intro h
    have h100 : (80 : ℚ) * m ≤ 100 * u := by exact_mod_cast h
    nlinarith

/-- Claim C1: for every state with status working or planning and every
valid RateLimitConfig, if the window has not elapsed
(now - windowStartTime <= periodMs) and tokenUsage / maxTokens >= 0.80,
then the rate-limit check before a model call denies the call, sets status
to cooldown, and sets nextAllowedQueryTime to exactly
now + (periodMs - elapsed). -/
theorem checkRateLimit_denies_at_threshold
    (cfg : RateLimitConfig) (now : Int) (s : AppState)
    (hstatus : s.status = .working ∨ s.status = .planning)
    (hvalid : ValidConfig cfg)
    (hwindow : now - s.windowStartTime ≤ periodMsOf cfg)
    (hthreshold : (0.8 : ℚ) ≤ (s.tokenUsage : ℚ) / (cfg.maxTokens : ℚ)) :
    checkRateLimit cfg now s =
      (false, { s with
                  status := .cooldown
                  nextAllowedQueryTime :=
                    now + (periodMsOf cfg - (now - s.windowStartTime)) }) := by
  have hnotElapsed : ¬ periodMsOf cfg < now - s.windowStartTime :=
    not_lt.mpr hwindow
  have hhit : 80 * cfg.maxTokens ≤ 100 * s.tokenUsage :=
    (threshold_iff s.tokenUsage cfg.maxTokens hvalid.1).mp hthreshold
  unfold checkRateLimit
  rw [if_neg hnotElapsed, if_pos hhit]

/-- Witness for C1: at the concrete input all hypotheses hold and the
check denies, transitioning to cooldown with the exact resume time. -/
theorem checkRateLimit_denies_at_threshold_witness :
    (c1State.status = .working ∨ c1State.status = .planning) ∧
    ValidConfig c1Config ∧
    (30000 - c1State.windowStartTime ≤ periodMsOf c1Config) ∧
    ((0.8 : ℚ) ≤ (c1State.tokenUsage : ℚ) / (c1Config.maxTokens : ℚ)) ∧
    checkRateLimit c1Config 30000 c1State =
      (false, { c1State with
                  status := .cooldown
                  nextAllowedQueryTime :=
                    30000 + (periodMsOf c1Config -
                      (30000 - c1State.windowStartTime)) }) :=
  ⟨Or.inl rfl, by constructor <;> decide, by decide,
   by norm_num [c1State, c1Config],
   checkRateLimit_denies_at_threshold c1Config 30000 c1State (Or.inl rfl)
     (by constructor <;> decide) (by decide)
     (by norm_num [c1State, c1Config])⟩

/-- Claim C2 counterexample: at a concrete working state with one pending
task, a task-execution failure leaves the task with status in-progress
(the mark committed before the awaited call is not rolled back), refuting
"no task in the task list is left with status in-progress". -/
theorem processNextStep_exec_failure_counterexample :
    ((processNextStep "q" c2Config 1000 c2Oracles c2State).tasks.any
        fun t => t.status == .inProgress) = true ∧
    (processNextStep "q" c2Config 1000 c2Oracles c2State).status = .paused := by
  constructor <;> decide

/-- Claim C2 (amended): if the task-execution call of a working-status
step fails (window not elapsed, below the 80% threshold), the resulting
state applies the paused transition plus exactly one error-kind log entry
on top of what was committed before the call — the action log entry and
the in-progress mark on the current task, which is NOT rolled back; no
completed-status/result mutation from the failed call is committed, no
other task is altered, and index and token usage are unchanged. -/
theorem processNextStep_exec_failure_spec
    (query : String) (cfg : RateLimitConfig) (now : Int) (oc : StepOracles)
    (s : AppState) (e : GenError)
    (hstatus : s.status = .working)
    (hidx : s.currentTaskIndex < s.tasks.length)
    (hwindow : now - s.windowStartTime ≤ periodMsOf cfg)
    (hbelow : 100 * s.tokenUsage < 80 * cfg.maxTokens)
    (hexec : oc.exec = .error e) :
    (processNextStep query cfg now oc s).status = .paused ∧
    (processNextStep query cfg now oc s).tasks =
      markInProgressAt s.currentTaskIndex s.tasks ∧
    (processNextStep query cfg now oc s).currentTaskIndex =
      s.currentTaskIndex ∧
    (processNextStep query cfg now oc s).tokenUsage = s.tokenUsage ∧
    (processNextStep query cfg now oc s).logs.length = s.logs.length + 2 ∧
    errorLogCount (processNextStep query cfg now oc s).logs =
      errorLogCount s.logs + 1 := by
  obtain ⟨sMid, hred, hts, hix, htok, hlen, herr⟩ :=
    processNextStep_exec_error_reduction query cfg now oc s e hstatus hidx
      hwindow hbelow hexec
  obtain ⟨h1, h2, h3, h4, h5, h6⟩ := stepCatch_spec now sMid e
  rw [hred]
  refine ⟨h1, ?_, ?_, ?_, ?_, ?_⟩
  · rw [h2, hts]
  · rw [h3, hix]
  · rw [h4, htok]
  · rw [h5, hlen]
  · rw [h6, herr]

/-- Witness for the amended C2 at the concrete counterexample input. -/
theorem processNextStep_exec_failure_spec_witness :
    c2State.status = .working ∧
    c2State.currentTaskIndex < c2State.tasks.length ∧
    (1000 - c2State.windowStartTime ≤ periodMsOf c2Config) ∧
    (100 * c2State.tokenUsage < 80 * c2Config.maxTokens) ∧
    c2Oracles.exec = .error blockedErr ∧
    ((processNextStep "q" c2Config 1000 c2Oracles c2State).status = .paused ∧
     (processNextStep "q" c2Config 1000 c2Oracles c2State).tasks =
       markInProgressAt c2State.currentTaskIndex c2State.tasks ∧
     (processNextStep "q" c2Config 1000 c2Oracles c2State).currentTaskIndex =
       c2State.currentTaskIndex ∧
     (processNextStep "q" c2Config 1000 c2Oracles c2State).tokenUsage =
       c2State.tokenUsage ∧
     (processNextStep "q" c2Config 1000 c2Oracles c2State).logs.length =
       c2State.logs.length + 2 ∧
     errorLogCount (processNextStep "q" c2Config 1000 c2Oracles c2State).logs =
       errorLogCount c2State.logs + 1) :=
  ⟨rfl, by decide, by decide, by decide, rfl,
   processNextStep_exec_failure_spec "q" c2Config 1000 c2Oracles c2State
     blockedErr rfl (by decide) (by decide) (by decide) rfl⟩

/-- Claim C10: for every final-synthesis step (status working, every task
index consumed, rate limiter permitting with the window not elapsed), the
mission transitions to completed with a non-null finalOutput even when the
underlying model call fails: a synthesis failure never pauses the mission;
finalOutput is set to an error-message string, zero tokens are charged for
the failed call, and the task list is untouched. -/
theorem processNextStep_synthesis_failure_completes
    (query : String) (cfg : RateLimitConfig) (now : Int) (oc : StepOracles)
    (s : AppState) (e : GenError)
    (hstatus : s.status = .working)
    (hidx : s.tasks.length ≤ s.currentTaskIndex)
    (hwindow : now - s.windowStartTime ≤ periodMsOf cfg)
    (hbelow : 100 * s.tokenUsage < 80 * cfg.maxTokens)
    (hfinal : oc.final = .error e) :
    (processNextStep query cfg now oc s).status = .completed ∧
    (processNextStep query cfg now oc s).finalOutput =
      some ("Error generating final output: " ++ genErrorToString e) ∧
    (processNextStep query cfg now oc s).tokenUsage = s.tokenUsage ∧
    (processNextStep query cfg now oc s).tasks = s.tasks ∧
    (processNextStep query cfg now oc s).currentTaskIndex =
      s.currentTaskIndex := by
  have hpass : checkRateLimit cfg now s = (true, s) :=
    checkRateLimit_pass cfg now s hwindow hbelow
  have hpass2 : checkRateLimit cfg now
      (addLog now s .SUPERVISOR "All tasks completed. Compiling final report..."
        .info none) =
      (true, addLog now s .SUPERVISOR
        "All tasks completed. Compiling final report..." .info none) :=
    checkRateLimit_pass cfg now _ hwindow hbelow
  unfold processNextStep
  rw [hpass]
  simp only [hstatus, ne_eq]
  rw [if_neg (by simp), if_neg (by simp), if_pos hidx]
  unfold synthesisStep
  dsimp only
  rw [hpass2]
  dsimp only
  simp only [superviseFinalOutput, hfinal]
  simp [addLog]

/-- Witness for C10 at a concrete completed-tasks state. -/
theorem processNextStep_synthesis_failure_completes_witness :
    c10State.status = .working ∧
    c10State.tasks.length ≤ c10State.currentTaskIndex ∧
    (1000 - c10State.windowStartTime ≤ periodMsOf c10Config) ∧
    (100 * c10State.tokenUsage < 80 * c10Config.maxTokens) ∧
    c10Oracles.final = .error serverErr ∧
    ((processNextStep "q" c10Config 1000 c10Oracles c10State).status =
       .completed ∧
     (processNextStep "q" c10Config 1000 c10Oracles c10State).finalOutput =
       some ("Error generating final output: " ++ genErrorToString serverErr) ∧
     (processNextStep "q" c10Config 1000 c10Oracles c10State).tokenUsage =
       c10State.tokenUsage ∧
     (processNextStep "q" c10Config 1000 c10Oracles c10State).tasks =
       c10State.tasks ∧
     (processNextStep "q" c10Config 1000 c10Oracles c10State).currentTaskIndex =
       c10State.currentTaskIndex) :=
  ⟨rfl, by decide, by decide, by decide, rfl,
   processNextStep_synthesis_failure_completes "q" c10Config 1000 c10Oracles
     c10State serverErr rfl (by decide) (by decide) (by decide) rfl⟩

/-- Claim C4: for every re-planning step at task index i, every task in
the completed prefix (indices 0..i) of the task list is byte-for-byte
identical before and after the re-plan (the list just before the re-plan
is the one with the executed task marked completed): re-planning replaces
only the not-yet-executed suffix and never alters a task already marked
completed.  This holds for every re-planning outcome, successful or not. -/
theorem processNextStep_replan_preserves_completed_tasks
    (query : String) (cfg : RateLimitConfig) (now : Int) (oc : StepOracles)
    (s : AppState) (r : ExecResponse)
    (hstatus : s.status = .working)
    (hrem : s.currentTaskIndex + 1 < s.tasks.length)
    (hwindow : now - s.windowStartTime ≤ periodMsOf cfg)
    (hbelow : 100 * s.tokenUsage < 80 * cfg.maxTokens)
    (hexec : oc.exec = .ok r) :
    (processNextStep query cfg now oc s).tasks.take (s.currentTaskIndex + 1) =
      (markCompletedAt s.currentTaskIndex (execText r) (r.usage.getD 0)
        s.tasks).take (s.currentTaskIndex + 1) ∧
    ∀ j : Nat, j ≤ s.currentTaskIndex →
      (processNextStep query cfg now oc s).tasks[j]? =
        (markCompletedAt s.currentTaskIndex (execText r) (r.usage.getD 0)
          s.tasks)[j]? := by
  obtain ⟨htasks, -, -, -⟩ := processNextStep_exec_ok_replan_reduction
    query cfg now oc s r hstatus hrem hwindow hbelow hexec
  have hlen : ((markCompletedAt s.currentTaskIndex (execText r)
      (r.usage.getD 0) s.tasks).take (s.currentTaskIndex + 1)).length =
      s.currentTaskIndex + 1 := by
    rw [List.length_take, markCompletedAt_length]
    omega
  have htake : (processNextStep query cfg now oc s).tasks.take
      (s.currentTaskIndex + 1) =
      (markCompletedAt s.currentTaskIndex (execText r) (r.usage.getD 0)
        s.tasks).take (s.currentTaskIndex + 1) := by
    rw [htasks]
    exact take_append_eq_of_length _ _ _ hlen
  refine ⟨htake, ?_⟩
  intro j hj
  have hj' : j < s.currentTaskIndex + 1 := by omega
  calc (processNextStep query cfg now oc s).tasks[j]?
      = ((processNextStep query cfg now oc s).tasks.take
          (s.currentTaskIndex + 1))[j]? :=
        (List.getElem?_take_of_lt hj').symm
    _ = ((markCompletedAt s.currentTaskIndex (execText r) (r.usage.getD 0)
          s.tasks).take (s.currentTaskIndex + 1))[j]? := by rw [htake]
    _ = (markCompletedAt s.currentTaskIndex (execText r) (r.usage.getD 0)
          s.tasks)[j]? := List.getElem?_take_of_lt hj'

/-- Witness for C4 at a concrete two-task state whose first task is
executed and whose plan is then rewritten by the supervisor. -/
theorem processNextStep_replan_preserves_completed_tasks_witness :
    c4State.status = .working ∧
    c4State.currentTaskIndex + 1 < c4State.tasks.length ∧
    (1000 - c4State.windowStartTime ≤ periodMsOf c4Config) ∧
    (100 * c4State.tokenUsage < 80 * c4Config.maxTokens) ∧
    c4Oracles.exec = .ok c4Exec ∧
    ((processNextStep "q" c4Config 1000 c4Oracles c4State).tasks.take
        (c4State.currentTaskIndex + 1) =
      (markCompletedAt c4State.currentTaskIndex (execText c4Exec)
        (c4Exec.usage.getD 0) c4State.tasks).take
        (c4State.currentTaskIndex + 1) ∧
     ∀ j : Nat, j ≤ c4State.currentTaskIndex →
       (processNextStep "q" c4Config 1000 c4Oracles c4State).tasks[j]? =
         (markCompletedAt c4State.currentTaskIndex (execText c4Exec)
           (c4Exec.usage.getD 0) c4State.tasks)[j]?) :=
  ⟨rfl, by decide, by decide, by decide, rfl,
   processNextStep_replan_preserves_completed_tasks "q" c4Config 1000
     c4Oracles c4State c4Exec rfl (by decide) (by decide) (by decide) rfl⟩

/-- Claim C5 counterexample: after a failed re-planning attempt the prior
remaining task (id "task-orig") is NOT kept unchanged: it is rebuilt with
a fresh id "task-1000-0", so the remaining task list differs from the
prior one, refuting "keeps the prior remaining tasks unchanged". -/
theorem processNextStep_replan_failure_counterexample :
    (markCompletedAt 0 (execText c5Exec) (c5Exec.usage.getD 0)
        c5State.tasks).drop 1 = [c5TaskB] ∧
    c5TaskB.id = "task-orig" ∧
    ((processNextStep "q" c5Config 1000 c5Oracles c5State).tasks.drop 1).map
        Task.id = ["task-1000-0"] ∧
    (processNextStep "q" c5Config 1000 c5Oracles c5State).tasks.drop 1 ≠
      [c5TaskB] := by
  refine ⟨by decide, rfl, by decide, by decide⟩

/-- Claim C5 (amended): for every re-planning attempt that fails
(gateway error or parse failure), the resulting state keeps the prior
remaining task titles, descriptions, assigned agents and pending status
in order — but rebuilds them with regenerated ids — adds zero tokens to
tokenUsage for that attempt (only the usage of the executed task is added), and
the mission does not pause (status remains working). -/
theorem processNextStep_replan_failure_spec
    (query : String) (cfg : RateLimitConfig) (now : Int) (oc : StepOracles)
    (s : AppState) (r : ExecResponse) (e : GenError)
    (hstatus : s.status = .working)
    (hrem : s.currentTaskIndex + 1 < s.tasks.length)
    (hwindow : now - s.windowStartTime ≤ periodMsOf cfg)
    (hbelow : 100 * s.tokenUsage < 80 * cfg.maxTokens)
    (hexec : oc.exec = .ok r)
    (hreplan : oc.replan = .error e) :
    (processNextStep query cfg now oc s).status = .working ∧
    (processNextStep query cfg now oc s).tokenUsage =
      s.tokenUsage + r.usage.getD 0 ∧
    (processNextStep query cfg now oc s).tasks.drop (s.currentTaskIndex + 1) =
      jsMapIdx (mkPendingTask now)
        ((s.tasks.drop (s.currentTaskIndex + 1)).map fun t =>
          { title := t.title, description := t.description,
            assignedAgent := t.assignedAgent }) ∧
    ((processNextStep query cfg now oc s).tasks.drop
        (s.currentTaskIndex + 1)).map
        (fun t => (t.title, t.description, t.assignedAgent)) =
      (s.tasks.drop (s.currentTaskIndex + 1)).map
        (fun t => (t.title, t.description, t.assignedAgent)) ∧
    ∀ t ∈ (processNextStep query cfg now oc s).tasks.drop
        (s.currentTaskIndex + 1), t.status = .pending := by
  obtain ⟨htasks, hstat, -, htok⟩ := processNextStep_exec_ok_replan_reduction
    query cfg now oc s r hstatus hrem hwindow hbelow hexec
  simp only [updateSupervisorPlan, hreplan] at htasks htok
  have hlen : ((markCompletedAt s.currentTaskIndex (execText r)
      (r.usage.getD 0) s.tasks).take (s.currentTaskIndex + 1)).length =
      s.currentTaskIndex + 1 := by
    rw [List.length_take, markCompletedAt_length]
    omega
  have hdrop : (processNextStep query cfg now oc s).tasks.drop
      (s.currentTaskIndex + 1) =
      jsMapIdx (mkPendingTask now)
        ((s.tasks.drop (s.currentTaskIndex + 1)).map fun t =>
          { title := t.title, description := t.description,
            assignedAgent := t.assignedAgent }) := by
    rw [htasks, drop_append_eq_of_length _ _ _ hlen,
      markCompletedAt_drop_succ]
  refine ⟨hstat, ?_, hdrop, ?_, ?_⟩
  · rw [htok]; omega
  · rw [hdrop, jsMapIdx_map_comp (mkPendingTask now)
      (fun t : Task => (t.title, t.description, t.assignedAgent))
      (fun sp : TaskSpec => (sp.title, sp.description, sp.assignedAgent))
      (fun i a => rfl), List.map_map]
    rfl
  · rw [hdrop]
    exact jsMapIdx_forall_mem (mkPendingTask now)
      (fun t => t.status = .pending) (fun i a => rfl) _

/-- Witness for the amended C5 at the concrete counterexample input. -/
theorem processNextStep_replan_failure_spec_witness :
    c5State.status = .working ∧
    c5State.currentTaskIndex + 1 < c5State.tasks.length ∧
    (1000 - c5State.windowStartTime ≤ periodMsOf c5Config) ∧
    (100 * c5State.tokenUsage < 80 * c5Config.maxTokens) ∧
    c5Oracles.exec = .ok c5Exec ∧
    c5Oracles.replan = .error serverErr ∧
    ((processNextStep "q" c5Config 1000 c5Oracles c5State).status =
        .working ∧
     (processNextStep "q" c5Config 1000 c5Oracles c5State).tokenUsage =
       c5State.tokenUsage + c5Exec.usage.getD 0 ∧
     (processNextStep "q" c5Config 1000 c5Oracles c5State).tasks.drop
        (c5State.currentTaskIndex + 1) =
       jsMapIdx (mkPendingTask 1000)
         ((c5State.tasks.drop (c5State.currentTaskIndex + 1)).map fun t =>
           { title := t.title, description := t.description,
             assignedAgent := t.assignedAgent }) ∧
     ((processNextStep "q" c5Config 1000 c5Oracles c5State).tasks.drop
         (c5State.currentTaskIndex + 1)).map
         (fun t => (t.title, t.description, t.assignedAgent)) =
       (c5State.tasks.drop (c5State.currentTaskIndex + 1)).map
         (fun t => (t.title, t.description, t.assignedAgent)) ∧
     ∀ t ∈ (processNextStep "q" c5Config 1000 c5Oracles c5State).tasks.drop
         (c5State.currentTaskIndex + 1), t.status = .pending) :=
  ⟨rfl, by decide, by decide, by decide, rfl, rfl,
   processNextStep_replan_failure_spec "q" c5Config 1000 c5Oracles c5State
     c5Exec serverErr rfl (by decide) (by decide) (by decide) rfl rfl⟩

/-- Claim C7 (code bug): the spec scenario says that when the window
elapses while status is cooldown, the next timer tick resets tokenUsage
to 0 and returns status to working.  The embedded tick does return to
working but leaves tokenUsage at 850 and restarts the window instead, so
the immediately following rate-limit check (1 s later) denies again and
re-enters cooldown: auto-resume never clears the spent budget. -/
theorem cooldownTick_does_not_reset_tokenUsage :
    (cooldownTick 60000 c7State).status = .working ∧
    (cooldownTick 60000 c7State).windowStartTime = 60000 ∧
    (cooldownTick 60000 c7State).tokenUsage = 850 ∧
    (checkRateLimit c7Config 61000 (cooldownTick 60000 c7State)).1 = false ∧
    (checkRateLimit c7Config 61000 (cooldownTick 60000 c7State)).2.status =
      .cooldown := by
  refine ⟨rfl, rfl, rfl, ?_, ?_⟩ <;> decide

/-- Claim C3 (code bug): a SAFETY-blocked response on the first key is
not propagated immediately; the thrown blocked-content Error is caught by
the same per-key catch, classified with default status 500 as a retriable
server error, and the loop proceeds to the second credential — here the
call even succeeds on key k2, and the ghost trace records both keys being
attempted. -/
theorem safetyBlock_is_retried_across_keys :
    generateContentWithFallback attemptC3 ["k1", "k2"] none =
      (.ok { text := "ok", candidates := [] }, ["k1", "k2"]) := by
  decide

/-- Claim C8: for every orchestration step taken while status is working
(whatever the oracles return and whatever the rate limiter decides),
currentTaskIndex never decreases, and if it did not exceed tasks.length
before the step it does not exceed it after; it is reset to 0 only by the
explicit restart handler (loading a saved session installs the loaded
index verbatim and is the other sanctioned change). -/
theorem currentTaskIndex_monotone_while_working
    (query : String) (cfg : RateLimitConfig) (now : Int) (oc : StepOracles)
    (s : AppState) (hstatus : s.status = .working) :
    s.currentTaskIndex ≤ (processNextStep query cfg now oc s).currentTaskIndex ∧
    (s.currentTaskIndex ≤ s.tasks.length →
      (processNextStep query cfg now oc s).currentTaskIndex ≤
        (processNextStep query cfg now oc s).tasks.length) ∧
    (∀ (now2 : Int) (s2 : AppState),
      (handleRestart now2 s2).currentTaskIndex = 0) := by
  refine ?_
  unfold processNextStep
  simp only [hstatus, ne_eq]
  rw [if_neg (by simp)]
  split
  · -- the rate-limit check denied: the committed state is returned as-is
    rename_i s1 heq
    have hI := congrArg AppState.currentTaskIndex (congrArg Prod.snd heq)
    have hT := congrArg AppState.tasks (congrArg Prod.snd heq)
    rw [checkRateLimit_snd_currentTaskIndex] at hI
    rw [checkRateLimit_snd_tasks] at hT
    refine ⟨hI.le, fun hb => ?_, fun now2 s2 => rfl⟩
    rw [← hI, ← hT]
    exact hb
  · rename_i s1 heq
    have hI := congrArg AppState.currentTaskIndex (congrArg Prod.snd heq)
    have hT := congrArg AppState.tasks (congrArg Prod.snd heq)
    rw [checkRateLimit_snd_currentTaskIndex] at hI
    rw [checkRateLimit_snd_tasks] at hT
    rw [if_neg (by simp)]
    split
    · -- synthesis branch: index and tasks unchanged
      rename_i hge
      obtain ⟨hsi, hst⟩ := synthesisStep_fields cfg now oc s s1
      refine ⟨?_, fun hb => ?_, fun now2 s2 => rfl⟩
      · rw [hsi, ← hI]
      · rw [hsi, hst, ← hI, ← hT]
        exact hb
    · -- execution branch
      rename_i hlt
      have hlt' : s.currentTaskIndex < s.tasks.length := by omega
      obtain ⟨h1, h2⟩ := executionStep_bounds query cfg now oc s s1 hlt'
        hI.symm hT.symm
      exact ⟨h1, fun _ => h2, fun now2 s2 => rfl⟩

/-- Witness for C8 at a concrete working state: the step advances the
index from 0 to at most the (possibly re-planned) task-list length, and
restart resets to 0. -/
theorem currentTaskIndex_monotone_while_working_witness :
    c8State.status = .working ∧
    (c8State.currentTaskIndex ≤
      (processNextStep "q" c8Config 1000 c8Oracles c8State).currentTaskIndex ∧
    (c8State.currentTaskIndex ≤ c8State.tasks.length →
      (processNextStep "q" c8Config 1000 c8Oracles c8State).currentTaskIndex ≤
        (processNextStep "q" c8Config 1000 c8Oracles c8State).tasks.length) ∧
    (∀ (now2 : Int) (s2 : AppState),
      (handleRestart now2 s2).currentTaskIndex = 0)) :=
  ⟨rfl, currentTaskIndex_monotone_while_working "q" c8Config 1000 c8Oracles
    c8State rfl⟩

/-- Claim C9 counterexample: loading a session whose saved agentPrompts
object is present but carries only the Supervisor role leaves the
in-memory map partially populated — missing roles are NOT backfilled from
the defaults (the `||` fallback fires only when the whole object is
absent), refuting "the map is never left partially populated". -/
theorem handleLoadSession_partial_prompts_counterexample :
    (handleLoadSession c9PartialSession).agentPrompts = .map c9Partial ∧
    promptsTotal (handleLoadSession c9PartialSession).agentPrompts = false := by
  exact ⟨rfl, by decide⟩

/-- Claim C9 (amended): loading a saved session backfills agentPrompts
from the defaults only when the property is wholly absent from the loaded
data (yielding the total default map); a present map — even a partially
populated one — is kept exactly as loaded, with no per-role backfill. -/
theorem handleLoadSession_prompts_backfill (session : SavedSession) :
    (session.state.agentPrompts = .absent →
      (handleLoadSession session).agentPrompts = .map DEFAULT_AGENT_PROMPTS ∧
      promptsTotal (handleLoadSession session).agentPrompts = true) ∧
    (∀ m : AgentRole → Option String, session.state.agentPrompts = .map m →
      (handleLoadSession session).agentPrompts = .map m) := by
  constructor
  · intro h
    unfold handleLoadSession
    rw [h]
    refine ⟨rfl, ?_⟩
    show promptsTotal (INITIAL_STATE 0).agentPrompts = true
    decide
  · intro m h
    unfold handleLoadSession
    rw [h]

/-- Witness for the amended C9: a session with agentPrompts absent loads
the total default map. -/
theorem handleLoadSession_prompts_backfill_witness :
    c9AbsentSession.state.agentPrompts = .absent ∧
    (handleLoadSession c9AbsentSession).agentPrompts =
      .map DEFAULT_AGENT_PROMPTS ∧
    promptsTotal (handleLoadSession c9AbsentSession).agentPrompts = true :=
  ⟨rfl, ((handleLoadSession_prompts_backfill c9AbsentSession).1 rfl).1,
   ((handleLoadSession_prompts_backfill c9AbsentSession).1 rfl).2⟩

/-- Claim C6: for every logical model call with a preferred role, the
failover strategy attempts the preferred credential of the role first, then
every other credential of the pool in a fixed deterministic order (pool
order), stopping at the first success; when every credential fails with a
retriable error, it propagates the last recorded error, and on an empty
key list it propagates the recorded error or a generic exhaustion error if
none was recorded. -/
theorem generateContentWithFallback_failover_strategy
    (attempt : String → Except GenError RawResponse)
    (errOf : String → GenError)
    (apiKeys : AgentRole → String) (keyPool : List String) (role : AgentRole) :
    executionOrder apiKeys keyPool role =
      preferredKey apiKeys keyPool role ::
        keyPool.filter (fun k => k != preferredKey apiKeys keyPool role) ∧
    (∃ rest, (generateContentWithFallback attempt
        (executionOrder apiKeys keyPool role) none).2 ++ rest =
        executionOrder apiKeys keyPool role) ∧
    (∀ (k : String) (ks : List String) (last : Option GenError)
        (r : RawResponse), attempt k = .ok r → blockedCheck r = none →
      generateContentWithFallback attempt (k :: ks) last = (.ok r, [k])) ∧
    (∀ (ks : List String) (k : String),
      (∀ x ∈ ks ++ [k], attempt x = .error (errOf x) ∧
        isGlobalQuotaExhausted (errOf x) = false ∧
        (isQuotaError (errOf x) || isServerError (errOf x)) = true) →
      generateContentWithFallback attempt (ks ++ [k]) none =
        (.error (errOf k), ks ++ [k])) ∧
    (∀ last : Option GenError, generateContentWithFallback attempt [] last =
      (.error (last.getD exhaustedError), [])) :=
  ⟨rfl, fallback_trace_in_order attempt (executionOrder apiKeys keyPool role) none,
   fun k ks last r ha hb => fallback_first_success attempt k ks last r ha hb,
   fun ks k hall => fallback_exhaustion attempt errOf ks k hall none,
   fun _ => rfl⟩

/-- Witness for C6: with preferred key B and pool [A, B, C], the execution
order is [B, A, C]; when every key fails with a per-key 429 quota error,
all three are attempted in that order and the last error (key C) is
propagated. -/
theorem generateContentWithFallback_failover_strategy_witness :
    executionOrder c6ApiKeys c6Pool .SUPERVISOR = ["B", "A", "C"] ∧
    (∀ x ∈ ["B", "A"] ++ ["C"], c6Attempt x = .error (c6ErrOf x) ∧
      isGlobalQuotaExhausted (c6ErrOf x) = false ∧
      (isQuotaError (c6ErrOf x) || isServerError (c6ErrOf x)) = true) ∧
    generateContentWithFallback c6Attempt
        (executionOrder c6ApiKeys c6Pool .SUPERVISOR) none =
      (.error (c6ErrOf "C"), ["B", "A", "C"]) :=
  ⟨by decide, by decide,
   (generateContentWithFallback_failover_strategy c6Attempt c6ErrOf c6ApiKeys
      c6Pool .SUPERVISOR).2.2.2.1 ["B", "A"] "C" (by decide)⟩

end Orchestrator
